import Mathlib

/-!
Verification of the bid-analysis engine (BidAnalyzer / app-level KPI functions).

The Python source operates on a pandas DataFrame whose rows are normalized bid
records.  We embed a row as a `BidRecord` structure, a DataFrame as a
`List BidRecord`, currency amounts as `ℚ`, and pandas operations as Lean
functions over lists:
  * `Series.median`  →  `median` (sort, middle element / mean of two middles),
  * `str.contains(pat, case=False)` on literal patterns  →  case-insensitive
    substring containment over `List Char`,
  * float division (which yields NaN/inf on a zero denominator instead of
    raising)  →  `pdDiv : ℚ → ℚ → Option ℚ` with `none` for the undefined case,
  * `.round(n)` (numpy half-to-even rounding)  →  `roundTo`,
  * `groupby` (which sorts group keys ascending)  →  map over
    `distinctDistribs`, a sorted deduplicated key list,
  * `sort_values` / `nlargest(_, keep='first')`  →  the stable
    `List.insertionSort` with the corresponding comparison.
-/

/-- One row of the normalized dataset.  Field names follow the source's
column names (`montant` stands for the column `montant soumission`). -/
structure BidRecord where
  reference : String := ""
  paillasse : String := ""
  famille : String := ""
  categorie : String := ""
  gamme : String := ""
  lot : String := ""
  marque : String := ""
  modele : String := ""
  distributeur : String := ""
  attribution : String := ""
  montant : ℚ := 0
deriving DecidableEq, Repr

/-- The focal distributor (`TS_NAME` in `app.py`, the literal used throughout
`bid_analysis.py`). -/
def TS_NAME : String := "TECHNOLOGIES SERVICES"

/-- `pat` occurs as a contiguous substring of `s` (Python `pat in s`,
pandas `str.contains` with a literal pattern). -/
def hasSubstr (pat : List Char) : List Char → Bool
  | [] => pat.isEmpty
  | c :: rest => pat.isPrefixOf (c :: rest) || hasSubstr pat rest

/-- Lower-cased character data of a string (for `case=False` matching). -/
def lowerData (s : String) : List Char := s.data.map Char.toLower

/-- `BidAnalyzer._identify_no_bidder_gammes`'s row predicate:
`distributeur.str.contains('pas de soumissionnaire|aucun|non', case=False)` —
a case-insensitive substring match against any of the three phrases. -/
def sentinelMatch (d : String) : Bool :=
  hasSubstr "pas de soumissionnaire".data (lowerData d) ||
  hasSubstr "aucun".data (lowerData d) ||
  hasSubstr "non".data (lowerData d)

/-- `BidAnalyzer._identify_no_bidder_gammes`: the rows whose distributor
matches the no-bidder sentinel pattern. -/
def noBidderRows (data : List BidRecord) : List BidRecord :=
  data.filter (fun r => sentinelMatch r.distributeur)

/-- `gamme['gamme'].split('-')[0]`: the part of the string before the first
`-` (the whole string if there is none). -/
def prefixToken (s : String) : List Char := s.data.takeWhile (fun c => c != '-')

/-- The `similar_gammes` selection in `BidAnalyzer._estimate_gamme_price`:
same `catégorie` and `gamme` containing (case-sensitively) the target's
prefix token. -/
def similarRecords (data : List BidRecord) (g : BidRecord) : List BidRecord :=
  data.filter (fun r =>
    decide (r.categorie = g.categorie) && hasSubstr (prefixToken g.gamme) r.gamme.data)

/-- The rows of the target's `catégorie` (method 2 of
`BidAnalyzer._estimate_gamme_price`). -/
def categoryRecords (data : List BidRecord) (g : BidRecord) : List BidRecord :=
  data.filter (fun r => decide (r.categorie = g.categorie))

/-- The `montant soumission` column of a selection. -/
def amounts (l : List BidRecord) : List ℚ := l.map (·.montant)

/-- The ascending sort a median computation starts from. -/
def sortedAsc (l : List ℚ) : List ℚ := l.insertionSort (· ≤ ·)

/-- `pandas.Series.median`: sort, take the middle element, or the mean of the
two middle elements; `none` (NaN) for an empty series. -/
def median (l : List ℚ) : Option ℚ :=
  if (sortedAsc l).length = 0 then none
  else if (sortedAsc l).length % 2 = 1 then
    some ((sortedAsc l).getD ((sortedAsc l).length / 2) 0)
  else
    some (((sortedAsc l).getD ((sortedAsc l).length / 2 - 1) 0 +
           (sortedAsc l).getD ((sortedAsc l).length / 2) 0) / 2)

/-- The `{price, confidence, method}` record returned by
`BidAnalyzer._estimate_gamme_price`.  `price` is `none` when the Python value
is NaN. -/
structure Estimation where
  price : Option ℚ
  confidence : String
  method : String
deriving DecidableEq, Repr

/-- `BidAnalyzer._estimate_gamme_price`: three-tier fallback.
Method 1: median over similar records if at least 2 exist; method 2: category
median if defined; method 3: global median times 0.7. -/
def estimateGammePrice (data : List BidRecord) (g : BidRecord) : Estimation :=
  if 2 ≤ (similarRecords data g).length then
    { price := median (amounts (similarRecords data g))
      confidence := "Élevé"
      method := "Médiane produits similaires" }
  else
    match median (amounts (categoryRecords data g)) with
    | some m =>
        { price := some m
          confidence := "Moyen"
          method := "Médiane catégorielle" }
    | none =>
        { price := (median (amounts data)).map (fun m => m * (7/10))
          confidence := "Faible"
          method := "Estimation marché global" }

/-- One row of the DataFrame built by `BidAnalyzer.estimate_missing_bids_value`. -/
structure OppRow where
  categorie : String
  gamme : String
  modele : String
  marque : String
  montant_estime : Option ℚ
  niveau_confiance : String
  methode_estimation : String
  opportunite_id : String
deriving DecidableEq, Repr

/-- `BidAnalyzer.estimate_missing_bids_value`: one estimation row per
no-bidder row. -/
def estimateMissingBidsValue (data : List BidRecord) : List OppRow :=
  (noBidderRows data).map (fun g =>
    let e := estimateGammePrice data g
    { categorie := g.categorie
      gamme := g.gamme
      modele := g.modele
      marque := g.marque
      montant_estime := e.price
      niveau_confiance := e.confidence
      methode_estimation := e.method
      opportunite_id := g.categorie ++ "_" ++ g.gamme })

/-- The `confidence_weights` mapping of `BidAnalyzer.get_strategic_opportunities`
(`pandas.Series.map`: a label outside the dict maps to NaN). -/
def confidenceWeight : String → Option ℚ
  | "Élevé" => some 1
  | "Moyen" => some (7/10)
  | "Faible" => some (2/5)
  | _ => none

/-- numpy/pandas round-half-to-even of a rational to an integer. -/
def roundHalfEven (y : ℚ) : ℤ :=
  if y - ⌊y⌋ < 1/2 then ⌊y⌋
  else if 1/2 < y - ⌊y⌋ then ⌊y⌋ + 1
  else if 2 ∣ ⌊y⌋ then ⌊y⌋ else ⌊y⌋ + 1

/-- `.round(d)`: round to `d` decimal places, half to even. -/
def roundTo (d : ℕ) (q : ℚ) : ℚ := (roundHalfEven (q * 10 ^ d) : ℚ) / 10 ^ d

/-- `score_opportunite = (montant_estime * score_confiance / 1000000).round(2)`
in `BidAnalyzer.get_strategic_opportunities` (NaN-propagating). -/
def scoreOpportunite (r : OppRow) : Option ℚ :=
  match r.montant_estime, confidenceWeight r.niveau_confiance with
  | some m, some w => some (roundTo 2 (m * w / 1000000))
  | _, _ => none

/-- The `pd.cut(score, bins=[0, 1, 5, inf], labels=['Basse','Moyenne','Haute'])`
bucketing of `BidAnalyzer.get_strategic_opportunities`.  `pd.cut` uses
right-closed intervals `(0,1], (1,5], (5,inf]`; a value outside every interval
(in particular any score ≤ 0) gets no label (NaN). -/
def prioritize (score : ℚ) : Option String :=
  if 0 < score ∧ score ≤ 1 then some "Basse"
  else if 1 < score ∧ score ≤ 5 then some "Moyenne"
  else if 5 < score then some "Haute"
  else none

/-- The `priorite` column: `pd.cut` applied to the (possibly NaN) score. -/
def priorite (r : OppRow) : Option String := (scoreOpportunite r).bind prioritize

/-- The `classify_position` helper of
`BidAnalyzer.get_ts_competitive_position`, as a function of the
`part_marche_montant` value. -/
def classifyPosition (p : ℚ) : String :=
  if 30 ≤ p then "Leader"
  else if 15 ≤ p then "Compétiteur fort"
  else if 5 ≤ p then "Compétiteur moyen"
  else "Marginal"

/-- C5: `classify_position` tiering is exactly `>= 30 → Leader`,
`15 ≤ p < 30 → Compétiteur fort` (StrongCompetitor), `5 ≤ p < 15 →
Compétiteur moyen` (ModerateCompetitor), `p < 5 → Marginal`; in particular
`classify_position 30 = Leader`, `classify_position 29.999 = Compétiteur fort`,
`classify_position 5 = Compétiteur moyen`, `classify_position 4.999 = Marginal`. -/
theorem claim_C5_classify_position (p : ℚ) :
    (classifyPosition p = "Leader" ↔ 30 ≤ p) ∧
    (classifyPosition p = "Compétiteur fort" ↔ 15 ≤ p ∧ p < 30) ∧
    (classifyPosition p = "Compétiteur moyen" ↔ 5 ≤ p ∧ p < 15) ∧
    (classifyPosition p = "Marginal" ↔ p < 5) ∧
    classifyPosition 30 = "Leader" ∧
    classifyPosition (29999/1000) = "Compétiteur fort" ∧
    classifyPosition 5 = "Compétiteur moyen" ∧
    classifyPosition (4999/1000) = "Marginal" := by
  refine ⟨?_, ?_, ?_, ?_, ?_, ?_, ?_, ?_⟩ <;>
    unfold classifyPosition <;> split_ifs with h1 h2 h3 <;>
    simp_all <;> first
      | linarith
      | (intro h; linarith)
      | (constructor <;> intro <;> linarith)
      | norm_num at *

/-- C2 counterexample: `pd.cut` with `bins=[0,1,5,inf]` is right-closed,
not left-closed: a score of exactly 1 falls in `(0,1]` and gets `Basse`
(Low), not `Moyenne` (Medium); a score of exactly 5 falls in `(1,5]` and
gets `Moyenne`, not `Haute` (High); and a score of 0 falls outside every
bin and gets no bucket at all. -/
theorem claim_C2_counterexample :
    prioritize 1 = some "Basse" ∧ prioritize 1 ≠ some "Moyenne" ∧
    prioritize 5 = some "Moyenne" ∧ prioritize 5 ≠ some "Haute" ∧
    prioritize 0 = none := by
  refine ⟨?_, ?_, ?_, ?_, ?_⟩ <;> simp [prioritize] <;> norm_num

/-- C2 (amended): `prioritize` buckets by upper-edge-inclusive cut points:
`Basse` (Low) exactly on `(0,1]`, `Moyenne` (Medium) exactly on `(1,5]`,
`Haute` (High) exactly on `(5,∞)`, and no bucket (NaN) exactly for
scores ≤ 0. -/
theorem claim_C2_prioritize_buckets (s : ℚ) :
    (prioritize s = some "Basse" ↔ 0 < s ∧ s ≤ 1) ∧
    (prioritize s = some "Moyenne" ↔ 1 < s ∧ s ≤ 5) ∧
    (prioritize s = some "Haute" ↔ 5 < s) ∧
    (prioritize s = none ↔ s ≤ 0) := by
  refine ⟨?_, ?_, ?_, ?_⟩ <;>
    unfold prioritize <;> split_ifs with h1 h2 h3 <;>
    simp_all <;> first
      | linarith
      | (intro h; linarith)
      | (constructor <;> intro <;> linarith)
      | (by_contra hc; push_neg at hc; linarith [h1 hc])

/-- Division as pandas performs it on floats: a zero denominator silently
yields NaN (0/0) or ±inf (x/0), never an exception; both are modelled as
`none`. -/
def pdDiv (a b : ℚ) : Option ℚ := if b = 0 then none else some (a / b)

/-- `data['montant soumission'].sum()`. -/
def totalAmount (data : List BidRecord) : ℚ := (amounts data).sum

/-- The rows of one distributor (one `groupby('distributeur')` group). -/
def rowsOfDistrib (data : List BidRecord) (d : String) : List BidRecord :=
  data.filter (fun r => decide (r.distributeur = d))

/-- A distributor group's `montant soumission` sum. -/
def groupSum (data : List BidRecord) (d : String) : ℚ :=
  (amounts (rowsOfDistrib data d)).sum

/-- `nunique` of a string column over a selection. -/
def nuniqueBy (f : BidRecord → String) (l : List BidRecord) : ℕ :=
  ((l.map f).dedup).length

/-- Lexicographic comparison of character lists (the code-point order pandas
sorts string group keys by). -/
def charListLe : List Char → List Char → Bool
  | [], _ => true
  | _ :: _, [] => false
  | a :: as, b :: bs => if a = b then charListLe as bs else decide (a < b)

/-- String comparison by code points. -/
def strLe (a b : String) : Bool := charListLe a.data b.data

/-- The group keys of `groupby('distributeur')`: distinct distributor names,
sorted ascending (pandas sorts group keys). -/
def distinctDistribs (data : List BidRecord) : List String :=
  ((data.map (·.distributeur)).dedup).insertionSort (fun a b => strLe a b)

/-- `data[data['distributeur'] == TS_NAME]`. -/
def tsData (data : List BidRecord) : List BidRecord :=
  data.filter (fun r => decide (r.distributeur = TS_NAME))

/-- `montant_total_ts` in `calculate_kpis`. -/
def montantTotalTs (data : List BidRecord) : ℚ := totalAmount (tsData data)

/-- `pourcentage_marche_ts` in `calculate_kpis`: explicitly guarded,
`(montant_total_ts / montant_total_marche * 100) if montant_total_marche > 0
else 0`. -/
def pourcentageMarcheTs (data : List BidRecord) : ℚ :=
  if 0 < totalAmount data then montantTotalTs data / totalAmount data * 100 else 0

/-- `set(data['lot'].unique())` in `calculate_kpis`. -/
def allLots (data : List BidRecord) : List String := (data.map (·.lot)).dedup

/-- `total_lots = data['lot'].nunique()`. -/
def totalLots (data : List BidRecord) : ℕ := (allLots data).length

/-- `lots_attribues_ts = data[data['attribution'] == TS_NAME]['lot'].nunique()`. -/
def lotsAttribuesTs (data : List BidRecord) : ℕ :=
  (((data.filter (fun r => decide (r.attribution = TS_NAME))).map (·.lot)).dedup).length

/-- `pourcentage_attribution_ts`: explicitly guarded,
`(lots_attribues_ts / total_lots * 100) if total_lots > 0 else 0`. -/
def pourcentageAttributionTs (data : List BidRecord) : ℚ :=
  if 0 < totalLots data then (lotsAttribuesTs data : ℚ) / (totalLots data : ℚ) * 100 else 0

/-- `lots_ts = set(ts_data['lot'].unique())`. -/
def lotsTs (data : List BidRecord) : List String := ((tsData data).map (·.lot)).dedup

/-- `lots_non_positionnes_ts = tous_les_lots - lots_ts` (set difference). -/
def lotsNonPositionnesTs (data : List BidRecord) : List String :=
  (allLots data).filter (fun l => decide (l ∉ lotsTs data))

/-- `lots_avec_soumission`: lots having a row whose distributor differs from
the exact string `'PAS DE SOUMISSIONNAIRE'` (equality, not containment). -/
def lotsAvecSoumission (data : List BidRecord) : List String :=
  ((data.filter (fun r => decide (r.distributeur ≠ "PAS DE SOUMISSIONNAIRE"))).map (·.lot)).dedup

/-- `lots_sans_soumission = tous_les_lots - lots_avec_soumission`. -/
def lotsSansSoumission (data : List BidRecord) : List String :=
  (allLots data).filter (fun l => decide (l ∉ lotsAvecSoumission data))

/-- One row of `get_distributeurs_analysis` (app.py): per-distributor sums
(`.round(0)`), counts, coverage counts, and the share of the market total
(`.round(2)`, unguarded division). -/
structure DistRow where
  distributeur : String
  montant_total : ℚ
  nombre_soumissions : ℕ
  lots_couverts : ℕ
  paillasses_couvertes : ℕ
  pourcentage_montant : Option ℚ
deriving DecidableEq, Repr

/-- One aggregated group row of `get_distributeurs_analysis`:
`agg({'montant soumission': ['sum','count'], 'lot': 'nunique',
'paillasse': 'nunique'}).round(0)` plus
`pourcentage_montant = (montant_total / total_montant * 100).round(2)` with
no zero-denominator guard. -/
def distRowOf (data : List BidRecord) (d : String) : DistRow :=
  { distributeur := d
    montant_total := roundTo 0 (groupSum data d)
    nombre_soumissions := (rowsOfDistrib data d).length
    lots_couverts := nuniqueBy (·.lot) (rowsOfDistrib data d)
    paillasses_couvertes := nuniqueBy (·.paillasse) (rowsOfDistrib data d)
    pourcentage_montant :=
      (pdDiv (roundTo 0 (groupSum data d)) (totalAmount data)).map
        (fun q => roundTo 2 (q * 100)) }

/-- `get_distributeurs_analysis` (app.py): one aggregate row per distributor,
sorted descending by `montant_total`. -/
def getDistributeursAnalysis (data : List BidRecord) : List DistRow :=
  ((distinctDistribs data).map (distRowOf data)).insertionSort
    (fun a b => b.montant_total ≤ a.montant_total)

/-- One row of `BidAnalyzer.get_competitive_landscape`: per-distributor
aggregates (`.round(2)`) with volume and amount market shares (unguarded
divisions). -/
structure CompRow where
  distributeur : String
  nombre_soumissions : ℕ
  montant_total : ℚ
  prix_moyen : Option ℚ
  categories_couvertes : ℕ
  gammes_couvertes : ℕ
  part_marche_volume : Option ℚ
  part_marche_montant : Option ℚ
deriving DecidableEq, Repr

/-- One aggregated group row of `BidAnalyzer.get_competitive_landscape`:
`agg(...).round(2)` plus the two share columns (unguarded divisions against
the whole dataset's row count and amount sum). -/
def compRowOf (data : List BidRecord) (d : String) : CompRow :=
  { distributeur := d
    nombre_soumissions := (rowsOfDistrib data d).length
    montant_total := roundTo 2 (groupSum data d)
    prix_moyen :=
      (pdDiv (groupSum data d) ((rowsOfDistrib data d).length : ℚ)).map (roundTo 2)
    categories_couvertes := nuniqueBy (·.categorie) (rowsOfDistrib data d)
    gammes_couvertes := nuniqueBy (·.gamme) (rowsOfDistrib data d)
    part_marche_volume :=
      (pdDiv ((rowsOfDistrib data d).length : ℚ) (data.length : ℚ)).map
        (fun q => roundTo 2 (q * 100))
    part_marche_montant :=
      (pdDiv (roundTo 2 (groupSum data d)) (totalAmount data)).map
        (fun q => roundTo 2 (q * 100)) }

/-- `BidAnalyzer.get_competitive_landscape`: one aggregate row per
distributor, in pandas group-key order (ascending). -/
def getCompetitiveLandscape (data : List BidRecord) : List CompRow :=
  (distinctDistribs data).map (compRowOf data)

/-- Ranking relation of `nlargest(5, 'nombre_soumissions')`: descending by
submission count (stable). -/
def compGE (a b : CompRow) : Prop := b.nombre_soumissions ≤ a.nombre_soumissions

instance : DecidableRel compGE :=
  fun a b => inferInstanceAs (Decidable (b.nombre_soumissions ≤ a.nombre_soumissions))

instance : IsTotal CompRow compGE :=
  ⟨fun a b => (Nat.le_total a.nombre_soumissions b.nombre_soumissions).symm⟩

instance : IsTrans CompRow compGE :=
  ⟨fun _ _ _ hab hbc => le_trans hbc hab⟩

/-- `BidAnalyzer.get_ts_vs_competitors`: the focal row(s) of the landscape,
concatenated with the 5 largest-by-count rows among the *eligible* non-focal
distributors — those with `nombre_soumissions >= 5`. -/
def getTsVsCompetitors (data : List BidRecord) : List CompRow :=
  let competitors := getCompetitiveLandscape data
  let ts := competitors.filter (fun r => decide (r.distributeur = TS_NAME))
  if ts.isEmpty then []
  else
    let main := competitors.filter (fun r =>
      decide (r.distributeur ≠ TS_NAME) && decide (5 ≤ r.nombre_soumissions))
    ts ++ (main.insertionSort compGE).take 5

/-- Ranking relation for `(distributor, sum)` pairs: descending by sum. -/
def pairGE (a b : String × ℚ) : Prop := b.2 ≤ a.2

instance : DecidableRel pairGE :=
  fun a b => inferInstanceAs (Decidable (b.2 ≤ a.2))

instance : IsTotal (String × ℚ) pairGE := ⟨fun a b => (le_total a.2 b.2).symm⟩

instance : IsTrans (String × ℚ) pairGE := ⟨fun _ _ _ hab hbc => le_trans hbc hab⟩

/-- Per-distributor `(name, sum)` pairs sorted descending by sum. -/
def sortedDistPairs (data : List BidRecord) : List (String × ℚ) :=
  ((distinctDistribs data).map (fun d => (d, groupSum data d))).insertionSort pairGE

/-- Modelled from the spec: `market_distribution` (spec §4.1).  The
top-8 + "OTHERS" collapsing appears in no function of the extracted source
files (only its consumers `get_distributeurs_analysis` /
`get_competitive_landscape` are present); per the spec, the per-distributor
sums are sorted descending, the top 8 distributors are kept individually and
the remainder is merged into a single synthetic `"OTHERS"` entry holding the
remainder's total, emitted only if that remainder is positive. -/
def marketDistribution (data : List BidRecord) : List (String × ℚ) :=
  let sorted := sortedDistPairs data
  let restSum := (((sorted.drop 8)).map Prod.snd).sum
  if 0 < restSum then sorted.take 8 ++ [("OTHERS", restSum)] else sorted.take 8

lemma median_isSome (l : List ℚ) (h : l ≠ []) : ∃ m, median l = some m := by
  have h0 : (sortedAsc l).length ≠ 0 := by
    rw [sortedAsc, List.length_insertionSort]
    simpa [List.length_eq_zero] using h
  unfold median
  rw [if_neg h0]
  split_ifs <;> exact ⟨_, rfl⟩

lemma hasSubstr_of_prefix {pat l : List Char} (h : pat <+: l) : hasSubstr pat l = true := by
  cases l with
  | nil =>
      have : pat = [] := List.prefix_nil.mp h
      simp [hasSubstr, this]
  | cons c rest =>
      simp only [hasSubstr, Bool.or_eq_true]
      exact Or.inl (List.isPrefixOf_iff_prefix.mpr h)

lemma hasSubstr_prefixToken_self (s : String) :
    hasSubstr (prefixToken s) s.data = true :=
  hasSubstr_of_prefix (List.takeWhile_prefix _)

/-- C1: for every target row and non-empty dataset, `_estimate_gamme_price`
follows the three-tier fallback in order, first match wins: with at least 2
records of the target's `catégorie` whose `gamme` contains the target's
prefix token (before the first `-`), it returns their amounts' median with
confidence `Élevé` (High); otherwise, if the category median is defined
(non-empty category), it returns it with confidence `Moyen` (Medium);
otherwise it returns 0.7 times the whole dataset's median with confidence
`Faible` (Low). -/
theorem claim_C1_estimation_fallback (data : List BidRecord) (g : BidRecord)
    (hne : data ≠ []) :
    (2 ≤ (similarRecords data g).length →
      estimateGammePrice data g =
        { price := median (amounts (similarRecords data g))
          confidence := "Élevé"
          method := "Médiane produits similaires" }) ∧
    ((similarRecords data g).length < 2 →
      ∀ m, median (amounts (categoryRecords data g)) = some m →
        estimateGammePrice data g =
          { price := some m, confidence := "Moyen", method := "Médiane catégorielle" }) ∧
    ((similarRecords data g).length < 2 →
      median (amounts (categoryRecords data g)) = none →
        ∃ m, median (amounts data) = some m ∧
          estimateGammePrice data g =
            { price := some (m * (7/10))
              confidence := "Faible"
              method := "Estimation marché global" }) := by
  refine ⟨?_, ?_, ?_⟩
  · intro h2
    rw [estimateGammePrice, if_pos h2]
  · intro hlt m hm
    rw [estimateGammePrice, if_neg (by omega), hm]
  · intro hlt hm
    have hne' : amounts data ≠ [] := by
      simpa [amounts, List.map_eq_nil] using hne
    obtain ⟨m, hmed⟩ := median_isSome _ hne'
    exact ⟨m, hmed, by rw [estimateGammePrice, if_neg (by omega), hm, hmed]; rfl⟩

/-- Witness dataset for C1: two same-category rows with a shared `G` prefix
token. -/
def c1target : BidRecord :=
  { categorie := "C", gamme := "G-1", lot := "L1",
    distributeur := "PAS DE SOUMISSIONNAIRE", montant := 100 }

/-- Second witness row for C1. -/
def c1other : BidRecord :=
  { categorie := "C", gamme := "G-2", lot := "L2",
    distributeur := "ACME", montant := 200 }

/-- Witness dataset for C1. -/
def c1data : List BidRecord := [c1target, c1other]

/-- C1 witness: the fallback theorem instantiated on a concrete two-row
dataset. -/
theorem claim_C1_estimation_fallback_witness :
    c1data ≠ [] ∧
    ((2 ≤ (similarRecords c1data c1target).length →
      estimateGammePrice c1data c1target =
        { price := median (amounts (similarRecords c1data c1target))
          confidence := "Élevé"
          method := "Médiane produits similaires" }) ∧
    ((similarRecords c1data c1target).length < 2 →
      ∀ m, median (amounts (categoryRecords c1data c1target)) = some m →
        estimateGammePrice c1data c1target =
          { price := some m, confidence := "Moyen", method := "Médiane catégorielle" }) ∧
    ((similarRecords c1data c1target).length < 2 →
      median (amounts (categoryRecords c1data c1target)) = none →
        ∃ m, median (amounts c1data) = some m ∧
          estimateGammePrice c1data c1target =
            { price := some (m * (7/10))
              confidence := "Faible"
              method := "Estimation marché global" })) :=
  ⟨by simp [c1data], claim_C1_estimation_fallback c1data c1target (by simp [c1data])⟩

/-- C9: no-bidder classification is case-insensitive substring containment,
not equality — a row is classified as a no-bidder row exactly when its
distributor contains one of the sentinel phrases anywhere in the name, every
such row is fed into opportunity estimation, and in particular the real
brand name `CANON` (which merely contains `non`) matches the sentinel
pattern. -/
theorem claim_C9_sentinel_substring (data : List BidRecord) (r : BidRecord)
    (h : r ∈ data) :
    (r ∈ noBidderRows data ↔ sentinelMatch r.distributeur = true) ∧
    (sentinelMatch r.distributeur = true →
      (r.categorie, r.gamme) ∈
        (estimateMissingBidsValue data).map (fun e => (e.categorie, e.gamme))) ∧
    sentinelMatch "CANON" = true := by
  refine ⟨?_, ?_, by decide⟩
  · simp [noBidderRows, List.mem_filter, h]
  · intro hs
    have hmem : r ∈ noBidderRows data := by
      simp [noBidderRows, List.mem_filter, h, hs]
    have hkeys : (estimateMissingBidsValue data).map (fun e => (e.categorie, e.gamme))
        = (noBidderRows data).map (fun r => (r.categorie, r.gamme)) := by
      rw [estimateMissingBidsValue, List.map_map]
      rfl
    rw [hkeys]
    exact List.mem_map_of_mem _ hmem

/-- Witness row for C9: a real bidder named `CANON`. -/
def c9row : BidRecord :=
  { categorie := "CAT", gamme := "GAM", lot := "L1",
    distributeur := "CANON", montant := 10 }

/-- Witness dataset for C9. -/
def c9data : List BidRecord := [c9row]

/-- C9 witness: the substring-classification theorem instantiated on the
`CANON` row. -/
theorem claim_C9_sentinel_substring_witness :
    c9row ∈ c9data ∧
    ((c9row ∈ noBidderRows c9data ↔ sentinelMatch c9row.distributeur = true) ∧
    (sentinelMatch c9row.distributeur = true →
      (c9row.categorie, c9row.gamme) ∈
        (estimateMissingBidsValue c9data).map (fun e => (e.categorie, e.gamme))) ∧
    sentinelMatch "CANON" = true) :=
  ⟨by simp [c9data], claim_C9_sentinel_substring c9data c9row (by simp [c9data])⟩

/-- Target row for the C10 shift example (a no-bidder sentinel row). -/
def c10target : BidRecord :=
  { categorie := "C", gamme := "G-1", lot := "L1",
    distributeur := "PAS DE SOUMISSIONNAIRE", montant := 100 }

/-- The same sentinel row with a different submitted amount. -/
def c10targetB : BidRecord := { c10target with montant := 300 }

/-- A real-bidder row of the same category for the C10 shift example. -/
def c10other : BidRecord :=
  { categorie := "C", gamme := "G-2", lot := "L2",
    distributeur := "ACME", montant := 200 }

/-- First C10 dataset. -/
def c10dataA : List BidRecord := [c10target, c10other]

/-- Second C10 dataset: identical except for the sentinel row's amount. -/
def c10dataB : List BidRecord := [c10targetB, c10other]

/-- C10: the tier-1 and tier-2 median candidate selections of
`_estimate_gamme_price` filter only on `catégorie` (and, for tier 1, prefix
containment in `gamme`) — no-bidder sentinel rows are not excluded, the
target row itself is always among the tier-1 candidates, and concretely,
changing only a sentinel row's own amount (100 → 300) shifts the estimate
(150 → 250). -/
theorem claim_C10_medians_include_sentinels (data : List BidRecord)
    (g r : BidRecord) (h : r ∈ data) :
    (r.categorie = g.categorie → r ∈ categoryRecords data g) ∧
    (r.categorie = g.categorie → hasSubstr (prefixToken g.gamme) r.gamme.data = true →
      r ∈ similarRecords data g) ∧
    (g ∈ data → g ∈ similarRecords data g) ∧
    (estimateGammePrice c10dataA c10target).price = some 150 ∧
    (estimateGammePrice c10dataB c10target).price = some 250 := by
  have hsimA : similarRecords c10dataA c10target = [c10target, c10other] := by decide
  have hsimB : similarRecords c10dataB c10target = [c10targetB, c10other] := by decide
  have hsortA : sortedAsc (amounts [c10target, c10other]) = [100, 200] := by decide
  have hsortB : sortedAsc (amounts [c10targetB, c10other]) = [200, 300] := by decide
  refine ⟨?_, ?_, ?_, ?_, ?_⟩
  · intro hc
    simp [categoryRecords, List.mem_filter, h, hc]
  · intro hc hp
    simp [similarRecords, List.mem_filter, h, hc, hp]
  · intro hg
    simp [similarRecords, List.mem_filter, hg, hasSubstr_prefixToken_self]
  · rw [estimateGammePrice, if_pos (by rw [hsimA]; decide), hsimA]
    rw [median, hsortA]
    norm_num
  · rw [estimateGammePrice, if_pos (by rw [hsimB]; decide), hsimB]
    rw [median, hsortB]
    norm_num

/-- C10 witness: the theorem instantiated on the first shift dataset with
its sentinel row as both member and target. -/
theorem claim_C10_medians_include_sentinels_witness :
    c10target ∈ c10dataA ∧
    ((c10target.categorie = c10target.categorie →
        c10target ∈ categoryRecords c10dataA c10target) ∧
    (c10target.categorie = c10target.categorie →
        hasSubstr (prefixToken c10target.gamme) c10target.gamme.data = true →
      c10target ∈ similarRecords c10dataA c10target) ∧
    (c10target ∈ c10dataA → c10target ∈ similarRecords c10dataA c10target) ∧
    (estimateGammePrice c10dataA c10target).price = some 150 ∧
    (estimateGammePrice c10dataB c10target).price = some 250) :=
  ⟨by simp [c10dataA],
   claim_C10_medians_include_sentinels c10dataA c10target c10target (by simp [c10dataA])⟩

/-- A lot with a real (non-focal) bidder only, for the C6 counterexample. -/
def c6row : BidRecord :=
  { categorie := "C1", gamme := "G1", lot := "L1",
    distributeur := "ACME", montant := 5 }

/-- C6 counterexample dataset. -/
def c6data : List BidRecord := [c6row]

/-- C6 counterexample: lot `L1` has no focal-distributor record (condition
(a) of the claim), yet the opportunity estimator output is empty — the
estimator is applied only to sentinel-matching rows, not to every group the
focal distributor skipped. -/
theorem claim_C6_counterexample :
    tsData c6data = [] ∧ lotsNonPositionnesTs c6data = ["L1"] ∧
    estimateMissingBidsValue c6data = [] := by decide

/-- C6 (amended): there is no single `find_unbid_groups`: the opportunity
estimator is applied exactly to the rows whose distributor contains a
sentinel phrase case-insensitively as substring; separately,
`calculate_kpis` computes the lots all of whose records carry exactly the
distributor `PAS DE SOUMISSIONNAIRE` (`lots_sans_soumission`) and the lots
having no focal-distributor record (`lots_non_positionnes_ts`), and neither
of those lot sets is fed to the estimator. -/
theorem claim_C6_estimator_domain (data : List BidRecord) (lot : String) :
    ((estimateMissingBidsValue data).map (fun e => (e.categorie, e.gamme))
        = (noBidderRows data).map (fun r => (r.categorie, r.gamme))) ∧
    (lot ∈ lotsSansSoumission data ↔
       lot ∈ data.map (·.lot) ∧
         ∀ r ∈ data, r.lot = lot → r.distributeur = "PAS DE SOUMISSIONNAIRE") ∧
    (lot ∈ lotsNonPositionnesTs data ↔
       lot ∈ data.map (·.lot) ∧ ∀ r ∈ data, r.lot = lot → r.distributeur ≠ TS_NAME) := by
  refine ⟨?_, ?_, ?_⟩
  · rw [estimateMissingBidsValue, List.map_map]
    rfl
  · simp only [lotsSansSoumission, lotsAvecSoumission, allLots, List.mem_filter,
      List.mem_dedup, List.mem_map, decide_eq_true_eq, List.mem_filter]
    constructor
    · rintro ⟨⟨r0, hr0, hl0⟩, hno⟩
      refine ⟨⟨r0, hr0, hl0⟩, ?_⟩
      intro r hr hl
      by_contra hne
      exact hno ⟨r, ⟨hr, hne⟩, hl⟩
    · rintro ⟨⟨r0, hr0, hl0⟩, hall⟩
      refine ⟨⟨r0, hr0, hl0⟩, ?_⟩
      rintro ⟨r, ⟨hr, hne⟩, hl⟩
      exact hne (hall r hr hl)
  · simp only [lotsNonPositionnesTs, lotsTs, tsData, allLots, List.mem_filter,
      List.mem_dedup, List.mem_map, decide_eq_true_eq]
    constructor
    · rintro ⟨⟨r0, hr0, hl0⟩, hno⟩
      refine ⟨⟨r0, hr0, hl0⟩, ?_⟩
      intro r hr hl hts
      exact hno ⟨r, ⟨hr, hts⟩, hl⟩
    · rintro ⟨⟨r0, hr0, hl0⟩, hall⟩
      refine ⟨⟨r0, hr0, hl0⟩, ?_⟩
      rintro ⟨r, ⟨hr, hts⟩, hl⟩
      exact hall r hr hl hts

lemma roundHalfEven_intCast (n : ℤ) : roundHalfEven (n : ℚ) = n := by
  rw [roundHalfEven, Int.floor_intCast]
  rw [if_pos (by norm_num)]

lemma abs_roundHalfEven_sub (y : ℚ) : |(roundHalfEven y : ℚ) - y| ≤ 1/2 := by
  have h1 : ((⌊y⌋ : ℤ) : ℚ) ≤ y := Int.floor_le y
  have h2 : y < (⌊y⌋ : ℤ) + 1 := Int.lt_floor_add_one y
  rw [roundHalfEven]
  split_ifs with ha hb hc <;>
    rw [abs_le] <;> constructor <;> push_cast <;> linarith

lemma roundTo_intCast (n : ℤ) : roundTo 0 (n : ℚ) = n := by
  simp [roundTo, roundHalfEven_intCast]

lemma abs_roundTo2_sub (q : ℚ) : |roundTo 2 q - q| ≤ 1/200 := by
  have h := abs_roundHalfEven_sub (q * 10 ^ 2)
  have heq : roundTo 2 q - q = ((roundHalfEven (q * 10 ^ 2) : ℚ) - q * 10 ^ 2) / 10 ^ 2 := by
    rw [roundTo]; ring
  rw [heq, abs_div, abs_of_pos (by norm_num : (0:ℚ) < 10 ^ 2)]
  rw [div_le_iff (by norm_num : (0:ℚ) < 10 ^ 2)]
  nlinarith [h]

lemma abs_sum_map_sub_le {α : Type} (l : List α) (f g : α → ℚ) (c : ℚ)
    (h : ∀ a ∈ l, |f a - g a| ≤ c) :
    |(l.map f).sum - (l.map g).sum| ≤ l.length * c := by
  induction l with
  | nil => simp
  | cons a t ih =>
      simp only [List.map_cons, List.sum_cons, List.length_cons]
      have h1 := h a (List.mem_cons_self a t)
      have h2 := ih (fun b hb => h b (List.mem_cons_of_mem _ hb))
      calc |f a + (t.map f).sum - (g a + (t.map g).sum)|
          = |(f a - g a) + ((t.map f).sum - (t.map g).sum)| := by ring_nf
        _ ≤ |f a - g a| + |(t.map f).sum - (t.map g).sum| := abs_add _ _
        _ ≤ c + t.length * c := add_le_add h1 h2
        _ = (t.length + 1) * c := by ring
        _ = ((t.length + 1 : ℕ) : ℚ) * c := by push_cast; ring

lemma sum_amounts_filter_split (data : List BidRecord) (p : BidRecord → Bool) :
    (amounts (data.filter p)).sum + (amounts (data.filter (fun r => !(p r)))).sum
      = (amounts data).sum := by
  induction data with
  | nil => simp [amounts]
  | cons r t ih =>
      simp only [amounts] at ih
      cases hp : p r <;>
        simp [amounts, List.filter_cons, hp] <;> linarith

lemma groupSum_filter_out {data : List BidRecord} {k d : String} (hdk : d ≠ k) :
    groupSum (data.filter (fun r => !(decide (r.distributeur = k)))) d
      = groupSum data d := by
  unfold groupSum rowsOfDistrib
  rw [List.filter_filter]
  unfold amounts
  congr 2
  apply List.filter_congr
  intro r _
  by_cases hd : r.distributeur = d
  · simp [hd, hdk]
  · simp [hd]

lemma sum_groupSum_keys (keys : List String) :
    ∀ (data : List BidRecord), keys.Nodup → (∀ r ∈ data, r.distributeur ∈ keys) →
      (keys.map (fun d => groupSum data d)).sum = totalAmount data := by
  induction keys with
  | nil =>
      intro data _ hall
      have hd : data = [] := by
        cases data with
        | nil => rfl
        | cons r t => exact absurd (hall r (by simp)) (by simp)
      simp [hd, totalAmount, amounts]
  | cons k ks ih =>
      intro data hnd hall
      simp only [List.map_cons, List.sum_cons]
      have hkn : k ∉ ks := (List.nodup_cons.mp hnd).1
      have htail : (ks.map (fun d => groupSum data d)).sum
          = (ks.map (fun d =>
              groupSum (data.filter (fun r => !(decide (r.distributeur = k)))) d)).sum :=
        congrArg List.sum
          (List.map_congr_left (fun d hd =>
            (groupSum_filter_out (fun (he : d = k) => hkn (he ▸ hd))).symm))
      rw [htail, ih _ ((List.nodup_cons.mp hnd).2) ?hcov]
      case hcov =>
        intro r hr
        have h1 := List.mem_filter.mp hr
        have h3 : r.distributeur ≠ k := by simpa using h1.2
        rcases List.mem_cons.mp (hall r h1.1) with he | hm
        · exact absurd he h3
        · exact hm
      have hsplit := sum_amounts_filter_split data (fun r => decide (r.distributeur = k))
      unfold totalAmount groupSum rowsOfDistrib at *
      linarith

lemma nodup_distinctDistribs (data : List BidRecord) : (distinctDistribs data).Nodup :=
  ((List.perm_insertionSort _ _).nodup_iff).mpr (List.nodup_dedup _)

lemma mem_distinctDistribs {data : List BidRecord} {d : String} :
    d ∈ distinctDistribs data ↔ ∃ r ∈ data, r.distributeur = d := by
  rw [distinctDistribs, (List.perm_insertionSort _ _).mem_iff]
  simp [List.mem_dedup, List.mem_map]

lemma sum_groupSum (data : List BidRecord) :
    ((distinctDistribs data).map (fun d => groupSum data d)).sum = totalAmount data :=
  sum_groupSum_keys _ data (nodup_distinctDistribs data)
    (fun r hr => mem_distinctDistribs.mpr ⟨r, hr, rfl⟩)

/-- A single zero-amount row, making the market total 0, for C4. -/
def c4row : BidRecord := { distributeur := "ACME", lot := "L1", montant := 0 }

/-- C4 counterexample dataset (total submitted amount 0). -/
def c4data : List BidRecord := [c4row]

/-- C4 counterexample: on a dataset whose total submitted amount is 0, the
per-distributor share percentages of `get_distributeurs_analysis` and
`get_competitive_landscape` are NaN (here `none`), not 0 — their divisions
carry no zero-denominator guard. -/
theorem claim_C4_counterexample :
    totalAmount c4data = 0 ∧
    (getDistributeursAnalysis c4data).map (·.pourcentage_montant) = [none] ∧
    (getCompetitiveLandscape c4data).map (·.part_marche_montant) = [none] := by
  have htot : totalAmount c4data = 0 := by
    simp [totalAmount, amounts, c4data, c4row]
  refine ⟨htot, ?_, ?_⟩
  · simp [getDistributeursAnalysis, distRowOf, distinctDistribs, c4data, c4row,
      List.insertionSort, List.orderedInsert, pdDiv, totalAmount, amounts]
  · simp [getCompetitiveLandscape, compRowOf, distinctDistribs, c4data, c4row,
      List.insertionSort, List.orderedInsert, pdDiv, totalAmount, amounts]

/-- C4 (amended): the scalar ratios of `calculate_kpis` are explicitly
guarded — the focal market share is 0 when the market total is 0, and the
attribution percentage is 0 on an empty dataset — but the per-distributor
share percentages of `get_distributeurs_analysis` and
`get_competitive_landscape` are unguarded pandas divisions and are NaN
(`none`), not 0, whenever the market total is 0. -/
theorem claim_C4_zero_denominator_policy (data : List BidRecord)
    (h : totalAmount data = 0) :
    pourcentageMarcheTs data = 0 ∧
    (∀ row ∈ getDistributeursAnalysis data, row.pourcentage_montant = none) ∧
    (∀ row ∈ getCompetitiveLandscape data, row.part_marche_montant = none) ∧
    (data = [] → pourcentageAttributionTs data = 0) := by
  refine ⟨?_, ?_, ?_, ?_⟩
  · rw [pourcentageMarcheTs, if_neg (by rw [h]; exact lt_irrefl 0)]
  · intro row hrow
    rw [getDistributeursAnalysis] at hrow
    obtain ⟨d, _, rfl⟩ := List.mem_map.mp ((List.perm_insertionSort _ _).mem_iff.mp hrow)
    simp [distRowOf, pdDiv, h]
  · intro row hrow
    rw [getCompetitiveLandscape] at hrow
    obtain ⟨d, _, rfl⟩ := List.mem_map.mp hrow
    simp [compRowOf, pdDiv, h]
  · intro hdat
    subst hdat
    simp [pourcentageAttributionTs, totalLots, allLots]

/-- C4 witness: the amended zero-denominator theorem instantiated on the
zero-total dataset. -/
theorem claim_C4_zero_denominator_policy_witness :
    totalAmount c4data = 0 ∧
    (pourcentageMarcheTs c4data = 0 ∧
    (∀ row ∈ getDistributeursAnalysis c4data, row.pourcentage_montant = none) ∧
    (∀ row ∈ getCompetitiveLandscape c4data, row.part_marche_montant = none) ∧
    (c4data = [] → pourcentageAttributionTs c4data = 0)) := by
  have h : totalAmount c4data = 0 := by
    simp [totalAmount, amounts, c4data, c4row]
  exact ⟨h, claim_C4_zero_denominator_policy c4data h⟩

lemma sum_map_div_mul (l : List ℚ) (t : ℚ) :
    (l.map (fun x => x / t * 100)).sum = l.sum / t * 100 := by
  induction l with
  | nil => simp
  | cons a s ih =>
      simp only [List.map_cons, List.sum_cons, ih]
      ring

lemma int_list_sum (l : List ℚ) (h : ∀ x ∈ l, ∃ n : ℤ, x = (n : ℚ)) :
    ∃ n : ℤ, l.sum = (n : ℚ) := by
  induction l with
  | nil => exact ⟨0, by simp⟩
  | cons a s ih =>
      obtain ⟨n, hn⟩ := h a (List.mem_cons_self a s)
      obtain ⟨m, hm⟩ := ih (fun x hx => h x (List.mem_cons_of_mem _ hx))
      exact ⟨n + m, by simp [hn, hm]⟩

lemma groupSum_int {data : List BidRecord}
    (hInt : ∀ r ∈ data, ∃ n : ℤ, r.montant = (n : ℚ)) (d : String) :
    ∃ n : ℤ, groupSum data d = (n : ℚ) := by
  apply int_list_sum
  intro x hx
  obtain ⟨r, hr, rfl⟩ := List.mem_map.mp hx
  exact hInt r (List.mem_filter.mp hr).1

/-- C7: the per-distributor sums of `get_distributeurs_analysis` add up to
the dataset's total amount (here under the hypothesis that the amounts are
whole currency units, so the `.round(0)` of the aggregation is the
identity); each share is computed against the entire dataset's total
(including the focal distributor); the exact shares sum to exactly 100 and
the stored `.round(2)` shares sum to 100 up to the accumulated rounding
error (1/200 per distributor). -/
theorem claim_C7_shares_sum_to_total (data : List BidRecord)
    (hInt : ∀ r ∈ data, ∃ n : ℤ, r.montant = (n : ℚ)) :
    (((getDistributeursAnalysis data).map (·.montant_total)).sum = totalAmount data) ∧
    (totalAmount data ≠ 0 →
      ((distinctDistribs data).map
          (fun d => groupSum data d / totalAmount data * 100)).sum = 100 ∧
      (∀ row ∈ getDistributeursAnalysis data,
        row.pourcentage_montant
          = some (roundTo 2 (row.montant_total / totalAmount data * 100))) ∧
      |(((getDistributeursAnalysis data).map
          (fun row => row.pourcentage_montant.getD 0)).sum) - 100|
        ≤ ((getDistributeursAnalysis data).length : ℚ) * (1/200)) := by
  have hround : ∀ d, roundTo 0 (groupSum data d) = groupSum data d := by
    intro d
    obtain ⟨n, hn⟩ := groupSum_int hInt d
    rw [hn, roundTo_intCast]
  have hperm : (getDistributeursAnalysis data).Perm
      ((distinctDistribs data).map (distRowOf data)) := by
    rw [getDistributeursAnalysis]
    exact List.perm_insertionSort _ _
  have hsum1 : ((getDistributeursAnalysis data).map (·.montant_total)).sum
      = totalAmount data := by
    rw [(hperm.map (·.montant_total)).sum_eq, List.map_map]
    calc ((distinctDistribs data).map
            (fun d => ((distRowOf data d).montant_total))).sum
        = ((distinctDistribs data).map (fun d => groupSum data d)).sum :=
          congrArg List.sum (List.map_congr_left (fun d _ => hround d))
      _ = totalAmount data := sum_groupSum data
  refine ⟨hsum1, fun ht => ⟨?_, ?_, ?_⟩⟩
  · have hcomp : (fun d => groupSum data d / totalAmount data * 100)
        = (fun x => x / totalAmount data * 100) ∘ (fun d => groupSum data d) := rfl
    rw [hcomp, ← List.map_map, sum_map_div_mul, sum_groupSum, div_self ht, one_mul]
  · intro row hrow
    obtain ⟨d, _, rfl⟩ := List.mem_map.mp (hperm.mem_iff.mp hrow)
    simp [distRowOf, pdDiv, ht]
  · have hmap2 : ((getDistributeursAnalysis data).map
        (fun row => row.pourcentage_montant.getD 0)).sum
        = ((distinctDistribs data).map
            (fun d => roundTo 2 (groupSum data d / totalAmount data * 100))).sum := by
      rw [(hperm.map (fun row => row.pourcentage_montant.getD 0)).sum_eq, List.map_map]
      refine congrArg List.sum (List.map_congr_left (fun d _ => ?_))
      simp [distRowOf, pdDiv, ht, hround d]
    have hlen : ((getDistributeursAnalysis data).length : ℚ)
        = ((distinctDistribs data).length : ℚ) := by
      rw [getDistributeursAnalysis, List.length_insertionSort, List.length_map]
    have hexact : ((distinctDistribs data).map
        (fun d => groupSum data d / totalAmount data * 100)).sum = 100 := by
      have hcomp : (fun d => groupSum data d / totalAmount data * 100)
          = (fun x => x / totalAmount data * 100) ∘ (fun d => groupSum data d) := rfl
      rw [hcomp, ← List.map_map, sum_map_div_mul, sum_groupSum, div_self ht, one_mul]
    have hb := abs_sum_map_sub_le (distinctDistribs data)
      (fun d => roundTo 2 (groupSum data d / totalAmount data * 100))
      (fun d => groupSum data d / totalAmount data * 100) (1/200)
      (fun d _ => abs_roundTo2_sub _)
    rw [hexact] at hb
    rw [hmap2, hlen]
    exact hb

/-- First C7 witness row. -/
def c7a : BidRecord := { distributeur := "ALPHA", lot := "L1", montant := 100 }

/-- Second C7 witness row. -/
def c7b : BidRecord := { distributeur := "BETA", lot := "L2", montant := 300 }

/-- C7 witness dataset: two distributors with integer amounts 100 and 300. -/
def c7data : List BidRecord := [c7a, c7b]

/-- C7 witness: the share-sum theorem instantiated on the two-distributor
dataset. -/
theorem claim_C7_shares_sum_to_total_witness :
    (∀ r ∈ c7data, ∃ n : ℤ, r.montant = (n : ℚ)) ∧
    ((((getDistributeursAnalysis c7data).map (·.montant_total)).sum = totalAmount c7data) ∧
    (totalAmount c7data ≠ 0 →
      ((distinctDistribs c7data).map
          (fun d => groupSum c7data d / totalAmount c7data * 100)).sum = 100 ∧
      (∀ row ∈ getDistributeursAnalysis c7data,
        row.pourcentage_montant
          = some (roundTo 2 (row.montant_total / totalAmount c7data * 100))) ∧
      |(((getDistributeursAnalysis c7data).map
          (fun row => row.pourcentage_montant.getD 0)).sum) - 100|
        ≤ ((getDistributeursAnalysis c7data).length : ℚ) * (1/200))) := by
  have hInt : ∀ r ∈ c7data, ∃ n : ℤ, r.montant = (n : ℚ) := by
    intro r hr
    rcases List.mem_cons.mp hr with rfl | hr2
    · exact ⟨100, by norm_num [c7a]⟩
    rcases List.mem_cons.mp hr2 with rfl | hr3
    · exact ⟨300, by norm_num [c7b]⟩
    · simp at hr3
  exact ⟨hInt, claim_C7_shares_sum_to_total c7data hInt⟩

lemma sortedDistPairs_perm (data : List BidRecord) :
    (sortedDistPairs data).Perm
      ((distinctDistribs data).map (fun d => (d, groupSum data d))) := by
  rw [sortedDistPairs]
  exact List.perm_insertionSort _ _

lemma sum_snd_sortedDistPairs (data : List BidRecord) :
    ((sortedDistPairs data).map Prod.snd).sum = totalAmount data := by
  rw [((sortedDistPairs_perm data).map Prod.snd).sum_eq, List.map_map]
  exact sum_groupSum data

lemma length_sortedDistPairs (data : List BidRecord) :
    (sortedDistPairs data).length = (distinctDistribs data).length := by
  rw [sortedDistPairs, List.length_insertionSort, List.length_map]

lemma snd_pos_sortedDistPairs {data : List BidRecord}
    (hpos : ∀ r ∈ data, 0 < r.montant) :
    ∀ p ∈ sortedDistPairs data, 0 < p.2 := by
  intro p hp
  obtain ⟨d, hd, rfl⟩ := List.mem_map.mp ((sortedDistPairs_perm data).mem_iff.mp hp)
  obtain ⟨r, hr, hrd⟩ := mem_distinctDistribs.mp hd
  apply List.sum_pos
  · intro x hx
    obtain ⟨r2, hr2, rfl⟩ := List.mem_map.mp hx
    exact hpos r2 (List.mem_filter.mp hr2).1
  · have hmem : r ∈ rowsOfDistrib data d := List.mem_filter.mpr ⟨hr, by simp [hrd]⟩
    exact List.ne_nil_of_mem (List.mem_map_of_mem _ hmem)

/-- C3: `market_distribution` (modelled from the spec) preserves the market
total, its underlying per-distributor list is sorted descending by sum, no
`OTHERS` row is synthesized when at most 8 distinct distributors exist, and
with more than 8 distributors (in particular 12) the result is exactly the
8 named top rows plus one `OTHERS` row carrying the positive remainder. -/
theorem claim_C3_market_distribution (data : List BidRecord)
    (hpos : ∀ r ∈ data, 0 < r.montant) :
    (((marketDistribution data).map Prod.snd).sum = totalAmount data) ∧
    List.Pairwise pairGE (sortedDistPairs data) ∧
    ((distinctDistribs data).length ≤ 8 →
      marketDistribution data = sortedDistPairs data) ∧
    (8 < (distinctDistribs data).length →
      (marketDistribution data).length = 9 ∧
      marketDistribution data
        = (sortedDistPairs data).take 8
            ++ [("OTHERS", (((sortedDistPairs data).drop 8).map Prod.snd).sum)] ∧
      0 < (((sortedDistPairs data).drop 8).map Prod.snd).sum) := by
  have hsplit : (((sortedDistPairs data).take 8).map Prod.snd).sum
      + (((sortedDistPairs data).drop 8).map Prod.snd).sum = totalAmount data := by
    have h := congrArg (fun l : List (String × ℚ) => (l.map Prod.snd).sum)
      (List.take_append_drop 8 (sortedDistPairs data))
    simpa [List.map_append, List.sum_append, sum_snd_sortedDistPairs data] using h
  have hsorted : List.Pairwise pairGE (sortedDistPairs data) := by
    rw [sortedDistPairs]
    exact List.sorted_insertionSort pairGE _
  refine ⟨?_, hsorted, ?_, ?_⟩
  · rw [marketDistribution]
    split_ifs with hr
    · rw [List.map_append, List.sum_append]
      simp only [List.map_cons, List.map_nil, List.sum_cons, List.sum_nil, add_zero]
      linarith [hsplit]
    · have h0 : (((sortedDistPairs data).drop 8).map Prod.snd).sum = 0 := by
        refine le_antisymm (not_lt.mp hr) (List.sum_nonneg ?_)
        intro x hx
        obtain ⟨p, hp, rfl⟩ := List.mem_map.mp hx
        exact le_of_lt (snd_pos_sortedDistPairs hpos p (List.drop_subset _ _ hp))
      linarith [hsplit]
  · intro h8
    have hdropnil : (sortedDistPairs data).drop 8 = [] := by
      have hl : ((sortedDistPairs data).drop 8).length = 0 := by
        rw [List.length_drop, length_sortedDistPairs]
        omega
      exact List.length_eq_zero.mp hl
    have htake : (sortedDistPairs data).take 8 = sortedDistPairs data := by
      have h := List.take_append_drop 8 (sortedDistPairs data)
      rw [hdropnil, List.append_nil] at h
      exact h
    rw [marketDistribution, hdropnil]
    simp [htake]
  · intro h8
    have hlen8 : 8 < (sortedDistPairs data).length := by
      rw [length_sortedDistPairs]
      exact h8
    have hdropne : (sortedDistPairs data).drop 8 ≠ [] := by
      intro h0
      have hl := congrArg List.length h0
      rw [List.length_drop] at hl
      simp at hl
      omega
    have hrpos : 0 < (((sortedDistPairs data).drop 8).map Prod.snd).sum := by
      apply List.sum_pos
      · intro x hx
        obtain ⟨p, hp, rfl⟩ := List.mem_map.mp hx
        exact snd_pos_sortedDistPairs hpos p (List.drop_subset _ _ hp)
      · exact fun h => hdropne (List.map_eq_nil.mp h)
    refine ⟨?_, ?_, hrpos⟩
    · rw [marketDistribution, if_pos hrpos, List.length_append, List.length_take]
      simp [min_eq_left (le_of_lt hlen8)]
    · rw [marketDistribution, if_pos hrpos]

/-- C3 witness rows: two distributors with positive amounts. -/
def c3a : BidRecord := { distributeur := "ALPHA", lot := "L1", montant := 3 }

/-- Second C3 witness row. -/
def c3b : BidRecord := { distributeur := "BETA", lot := "L2", montant := 4 }

/-- C3 witness dataset. -/
def c3data : List BidRecord := [c3a, c3b]

/-- C3 witness: the market-distribution theorem instantiated on a concrete
all-positive dataset. -/
theorem claim_C3_market_distribution_witness :
    (∀ r ∈ c3data, 0 < r.montant) ∧
    ((((marketDistribution c3data).map Prod.snd).sum = totalAmount c3data) ∧
    List.Pairwise pairGE (sortedDistPairs c3data) ∧
    ((distinctDistribs c3data).length ≤ 8 →
      marketDistribution c3data = sortedDistPairs c3data) ∧
    (8 < (distinctDistribs c3data).length →
      (marketDistribution c3data).length = 9 ∧
      marketDistribution c3data
        = (sortedDistPairs c3data).take 8
            ++ [("OTHERS", (((sortedDistPairs c3data).drop 8).map Prod.snd).sum)] ∧
      0 < (((sortedDistPairs c3data).drop 8).map Prod.snd).sum)) :=
  ⟨by decide, claim_C3_market_distribution c3data (by decide)⟩

/-- Focal row for the C8 counterexample. -/
def c8ts : BidRecord := { distributeur := "TECHNOLOGIES SERVICES", lot := "L1", montant := 10 }

/-- A competitor with a single submission, for the C8 counterexample. -/
def c8comp : BidRecord := { distributeur := "DELTA", lot := "L2", montant := 20 }

/-- C8 counterexample dataset. -/
def c8data : List BidRecord := [c8ts, c8comp]

/-- C8 counterexample: `DELTA` is the top non-focal distributor by
submission count, yet `get_ts_vs_competitors` returns only the focal row —
the eligibility filter `nombre_soumissions >= 5` excludes every competitor
with fewer than 5 submissions. -/
theorem claim_C8_counterexample :
    (getTsVsCompetitors c8data).map (·.distributeur) = [TS_NAME] ∧
    "DELTA" ∈ c8data.map (·.distributeur) := by decide

/-- C8 (amended): when the focal distributor has at least one row,
`get_ts_vs_competitors` returns the focal landscape row(s) followed by at
most 5 competitor rows, each a landscape row of a non-focal distributor
with at least 5 submissions (the eligibility threshold), and every eligible
competitor left out has a submission count no larger than each included
one. -/
theorem claim_C8_top5_with_threshold (data : List BidRecord)
    (h : TS_NAME ∈ data.map (·.distributeur)) :
    ∃ comps,
      getTsVsCompetitors data
        = (getCompetitiveLandscape data).filter
            (fun r => decide (r.distributeur = TS_NAME)) ++ comps ∧
      comps.length ≤ 5 ∧
      (∀ r ∈ comps, r ∈ getCompetitiveLandscape data ∧
        r.distributeur ≠ TS_NAME ∧ 5 ≤ r.nombre_soumissions) ∧
      (∀ r ∈ getCompetitiveLandscape data,
        r.distributeur ≠ TS_NAME → 5 ≤ r.nombre_soumissions → r ∉ comps →
          ∀ c ∈ comps, r.nombre_soumissions ≤ c.nombre_soumissions) := by
  obtain ⟨r0, hr0, hrd0⟩ := List.mem_map.mp h
  have htsd : TS_NAME ∈ distinctDistribs data := mem_distinctDistribs.mpr ⟨r0, hr0, hrd0⟩
  have htsrow : compRowOf data TS_NAME ∈ (getCompetitiveLandscape data).filter
      (fun r => decide (r.distributeur = TS_NAME)) := by
    refine List.mem_filter.mpr ⟨List.mem_map_of_mem _ htsd, ?_⟩
    simp [compRowOf]
  have htsne : ((getCompetitiveLandscape data).filter
      (fun r => decide (r.distributeur = TS_NAME))).isEmpty = false := by
    rcases hfil : (getCompetitiveLandscape data).filter
        (fun r => decide (r.distributeur = TS_NAME)) with _ | ⟨a, l⟩
    · rw [hfil] at htsrow
      simp at htsrow
    · rw [hfil]
      rfl
  refine ⟨(((getCompetitiveLandscape data).filter (fun r =>
      decide (r.distributeur ≠ TS_NAME) && decide (5 ≤ r.nombre_soumissions))).insertionSort
        compGE).take 5, ?_, ?_, ?_, ?_⟩
  · rw [getTsVsCompetitors]
    simp only [htsne, Bool.false_eq_true, if_false]
  · rw [List.length_take]
    exact min_le_left _ _
  · intro r hrc
    have hmain : r ∈ (getCompetitiveLandscape data).filter (fun r =>
        decide (r.distributeur ≠ TS_NAME) && decide (5 ≤ r.nombre_soumissions)) :=
      (List.perm_insertionSort compGE _).mem_iff.mp (List.take_subset _ _ hrc)
    have hf := List.mem_filter.mp hmain
    refine ⟨hf.1, ?_, ?_⟩
    · have := hf.2
      simp at this
      exact this.1
    · have := hf.2
      simp at this
      exact this.2
  · intro r hrl hrne hr5 hrnot c hc
    set s := (((getCompetitiveLandscape data).filter (fun r =>
      decide (r.distributeur ≠ TS_NAME) && decide (5 ≤ r.nombre_soumissions))).insertionSort
        compGE) with hs
    have hmain : r ∈ (getCompetitiveLandscape data).filter (fun r =>
        decide (r.distributeur ≠ TS_NAME) && decide (5 ≤ r.nombre_soumissions)) :=
      List.mem_filter.mpr ⟨hrl, by
        rw [Bool.and_eq_true, decide_eq_true_eq, decide_eq_true_eq]
        exact ⟨hrne, hr5⟩⟩
    have hsorted0 : List.Pairwise compGE s := by
      rw [hs]
      exact List.sorted_insertionSort compGE _
    have hsorted : List.Pairwise compGE (s.take 5 ++ s.drop 5) := by
      rw [List.take_append_drop]
      exact hsorted0
    have hrs : r ∈ s := by
      rw [hs]
      exact (List.perm_insertionSort compGE _).mem_iff.mpr hmain
    have hrs2 : r ∈ s.take 5 ++ s.drop 5 := by
      rw [List.take_append_drop]
      exact hrs
    rcases List.mem_append.mp hrs2 with htk | hdr
    · exact absurd htk hrnot
    · exact (List.pairwise_append.mp hsorted).2.2 c hc r hdr

/-- C8 witness dataset: the focal distributor alone. -/
def c8wdata : List BidRecord := [c8ts]

/-- C8 witness: the amended theorem instantiated on a dataset where the
focal distributor has a row. -/
theorem claim_C8_top5_with_threshold_witness :
    (TS_NAME ∈ c8wdata.map (·.distributeur)) ∧
    (∃ comps,
      getTsVsCompetitors c8wdata
        = (getCompetitiveLandscape c8wdata).filter
            (fun r => decide (r.distributeur = TS_NAME)) ++ comps ∧
      comps.length ≤ 5 ∧
      (∀ r ∈ comps, r ∈ getCompetitiveLandscape c8wdata ∧
        r.distributeur ≠ TS_NAME ∧ 5 ≤ r.nombre_soumissions) ∧
      (∀ r ∈ getCompetitiveLandscape c8wdata,
        r.distributeur ≠ TS_NAME → 5 ≤ r.nombre_soumissions → r ∉ comps →
          ∀ c ∈ comps, r.nombre_soumissions ≤ c.nombre_soumissions)) :=
  ⟨by decide, claim_C8_top5_with_threshold c8wdata (by decide)⟩
